import Mathlib

/-!
Verification of the runt daemon specification.

The executable core of the daemon (replicated document, environment
resolver, kernel supervisor, execution coordinator, terminal emulator)
is a native extension whose Rust sources are not part of this source
tree; only its Python test-suite and bindings are.  Those components are
therefore modelled here from the specification text (each such
definition carries a doc comment starting with "Modelled from the
spec:").  The display-hook serialization helper
(`RichDisplayHook._make_serializable` in
`packages/pyodide-runtime-agent/src/ipython-setup.py`) is Python source
present in the tree and is embedded directly from that source.
-/

set_option maxHeartbeats 1000000

/-! ## Replicated document (spec section 4.1, data model section 3) -/

/-- Modelled from the spec: the logical timestamp used by the convergent
merge rule ("a fixed tie-break such as replica identity + logical
clock", section 4.1).  The Rust document layer is not in the source
tree. -/
structure Timestamp where
  clock : Nat
  replica : Nat
deriving DecidableEq, Repr

/-- Modelled from the spec: strict lexicographic order on (logical
clock, replica identity), the deterministic tie-break of section 4.1. -/
def tsLtb (a b : Timestamp) : Bool :=
  decide (a.clock < b.clock ∨ (a.clock = b.clock ∧ a.replica < b.replica))

theorem tsLtb_asymm {a b : Timestamp} (h : tsLtb a b = true) : tsLtb b a = false := by
  simp only [tsLtb, decide_eq_true_eq, decide_eq_false_iff_not] at *
  omega

theorem tsLtb_antisymm {a b : Timestamp} (h1 : tsLtb a b = false)
    (h2 : tsLtb b a = false) : a = b := by
  cases a; cases b
  simp only [tsLtb, decide_eq_false_iff_not] at h1 h2
  simp only [Timestamp.mk.injEq]
  omega

/-- Modelled from the spec: the per-cell replicated register — source
text with its last-writer-wins timestamp, plus the deletion tombstone
("Deleting a cell is a tombstone", section 4.1; "never reused after
deletion", section 3). -/
structure CellReg where
  source : String
  srcTs : Timestamp
  deleted : Bool
deriving DecidableEq, Repr

/-- Modelled from the spec: the converged local state of the Replicated
Document, as a map from cell id to its register (section 4.1). -/
def DocState : Type := String → Option CellReg

/-- Modelled from the spec: the empty document a fresh notebook starts
from. -/
def emptyDoc : DocState := fun _ => Option.none

/-- Modelled from the spec: a Cell as surfaced to clients — identity,
source text and cell kind (section 3). -/
structure Cell where
  id : String
  source : String
  cellType : String
deriving DecidableEq, Repr

/-- Modelled from the spec: `get_cell(id) -> Cell | NotFound`; a
tombstoned cell is NotFound (section 4.1). -/
def getCell (d : DocState) (id : String) : Option Cell :=
  match d id with
  | Option.none => Option.none
  | some r => if r.deleted then Option.none else some ⟨id, r.source, "code"⟩

/-- Modelled from the spec: `create_cell(source) -> id`, with the id
generated as "cell-" + unique-suffix (section 3).  Ids are never reused,
so an already-present id is left untouched. -/
def createCell (d : DocState) (suffix source : String) (ts : Timestamp) :
    String × DocState :=
  let id := "cell-" ++ suffix
  (id, fun i =>
    if i = id then
      match d id with
      | some r => some r
      | Option.none => some ⟨source, ts, false⟩
    else d i)

/-- Modelled from the spec: `set_source(id, text)`; a last-writer-wins
update of the source register (section 4.1), a no-op on absent or
tombstoned cells. -/
def setSource (d : DocState) (id text : String) (ts : Timestamp) : DocState :=
  fun i =>
    if i = id then
      match d id with
      | some r =>
          if r.deleted then some r
          else if tsLtb r.srcTs ts then some ⟨text, ts, false⟩
          else some r
      | Option.none => Option.none
    else d i

/-- Modelled from the spec: `delete_cell(id)` writes the permanent
tombstone (section 4.1). -/
def deleteCell (d : DocState) (id : String) : DocState :=
  fun i =>
    if i = id then (d id).map (fun r => ⟨r.source, r.srcTs, true⟩)
    else d i

/-- Modelled from the spec: one local document mutation issued by a
session (section 4.1 contract). -/
inductive DocOp where
  | create (suffix source : String) (ts : Timestamp)
  | setSrc (id text : String) (ts : Timestamp)
  | del (id : String)
deriving DecidableEq, Repr

/-- Modelled from the spec: local-first application of one mutation to a
session's own converged state (section 4.1). -/
def applyOp (d : DocState) : DocOp → DocState
  | .create suffix source ts => (createCell d suffix source ts).2
  | .setSrc id text ts => setSource d id text ts
  | .del id => deleteCell d id

/-- Modelled from the spec: a session's state after issuing a sequence
of local mutations. -/
def applyOps (d : DocState) (ops : List DocOp) : DocState :=
  ops.foldl applyOp d

/-- Modelled from the spec: the convergent merge of two per-cell
registers — tombstones are permanent, the source register is
last-writer-wins with the deterministic tie-break (section 4.1). -/
def mergeReg (a b : CellReg) : CellReg :=
  if tsLtb a.srcTs b.srcTs then ⟨b.source, b.srcTs, a.deleted || b.deleted⟩
  else if tsLtb b.srcTs a.srcTs then ⟨a.source, a.srcTs, a.deleted || b.deleted⟩
  else if a.source < b.source then ⟨b.source, b.srcTs, a.deleted || b.deleted⟩
  else ⟨a.source, a.srcTs, a.deleted || b.deleted⟩

/-- Modelled from the spec: the merge-with-remote-state operation of the
Replicated Document (section 4.1). -/
def mergeDoc (s1 s2 : DocState) : DocState :=
  fun i =>
    match s1 i, s2 i with
    | Option.none, r => r
    | some r, Option.none => some r
    | some a, some b => some (mergeReg a b)

theorem mergeReg_comm (a b : CellReg) : mergeReg a b = mergeReg b a := by
  unfold mergeReg
  rcases hab : tsLtb a.srcTs b.srcTs with _ | _
  · rcases hba : tsLtb b.srcTs a.srcTs with _ | _
    · have hts : a.srcTs = b.srcTs := tsLtb_antisymm hab hba
      rcases lt_trichotomy a.source b.source with hs | hs | hs
      · simp [hs, not_lt_of_gt hs, hts, Bool.or_comm]
      · simp [hs, lt_irrefl, hts, Bool.or_comm]
      · simp [hs, not_lt_of_gt hs, Bool.or_comm]
    · simp [hab, hba, Bool.or_comm]
  · have hba := tsLtb_asymm hab
    simp [hab, hba, Bool.or_comm]

theorem mergeDoc_comm_pointwise (s1 s2 : DocState) (i : String) :
    mergeDoc s1 s2 i = mergeDoc s2 s1 i := by
  unfold mergeDoc
  cases s1 i <;> cases s2 i <;> simp [mergeReg_comm]

/-- After each peer merges the other's state, both observe the same
cells — pointwise on every cell id. -/
theorem doc_sync_convergence_aux (sA sB : DocState) (id : String) :
    getCell (mergeDoc sA sB) id = getCell (mergeDoc sB sA) id := by
  unfold getCell
  rw [mergeDoc_comm_pointwise]

/-! ## Terminal emulator (spec section 4.6) -/

/-- Modelled from the spec: the virtual cursor/line buffer the Terminal
Emulator keeps per output stream (section 4.6).  The Rust
implementation (alacritty-based) is not in the source tree. -/
structure TermState where
  committed : List (List Char)
  line : List Char
  cursor : Nat
deriving DecidableEq, Repr

/-- Modelled from the spec: the empty buffer at the start of an
execution. -/
def initTerm : TermState := ⟨[], [], 0⟩

/-- Modelled from the spec: overwrite-in-place at the cursor column,
padding with blanks when the cursor sits past the end of the line
(section 4.6 "plain text insertion at the cursor ... subsequent writes
overwrite in place"). -/
def overwriteAt : List Char → Nat → Char → List Char
  | [], 0, c => [c]
  | [], n + 1, c => ' ' :: overwriteAt [] n c
  | _ :: xs, 0, c => c :: xs
  | x :: xs, n + 1, c => x :: overwriteAt xs n c

/-- Modelled from the spec: the terminal state machine, one input byte
at a time — carriage return moves the cursor to column 0 without
clearing, line feed commits the line, backspace moves the cursor one
column left, anything else (escape bytes included, which are preserved
verbatim) is written at the cursor (section 4.6). -/
def termWrite (st : TermState) (c : Char) : TermState :=
  if c = '\r' then ⟨st.committed, st.line, 0⟩
  else if c = '\n' then ⟨st.committed ++ [st.line], [], 0⟩
  else if c = '\x08' then ⟨st.committed, st.line, st.cursor - 1⟩
  else ⟨st.committed, overwriteAt st.line st.cursor c, st.cursor + 1⟩

/-- Modelled from the spec: feeding a raw byte string through the state
machine. -/
def termFeed (st : TermState) (s : String) : TermState :=
  s.data.foldl termWrite st

/-- Modelled from the spec: serializing the buffer back to text on
execution completion — committed lines plus the still-open line
(section 4.6). -/
def TermState.render (st : TermState) : String :=
  String.intercalate "\n" ((st.committed ++ [st.line]).map (fun l => String.mk l))

/-- Modelled from the spec: the materialized text of one stream for one
execution, from that stream's raw bytes. -/
def terminalRender (raw : String) : String :=
  (termFeed initTerm raw).render

/-- Boolean check that `needle` occurs at the head of `haystack`. -/
def occursAt : List Char → List Char → Bool
  | [], _ => true
  | _ :: _, [] => false
  | n :: ns, h :: hs => (n == h) && occursAt ns hs

/-- Boolean substring check on character lists. -/
def occursIn (needle : List Char) : List Char → Bool
  | [] => occursAt needle []
  | h :: hs => occursAt needle (h :: hs) || occursIn needle hs

/-- Boolean substring check on strings. -/
def strOccursIn (needle haystack : String) : Bool :=
  occursIn needle.data haystack.data

/-- Modelled from the spec: one write of raw bytes to one of the two
streams of an execution (true = stdout, false = stderr). -/
def StreamWrite : Type := Bool × String

/-- Modelled from the spec: the pair of per-stream buffers the emulator
keeps for one execution ("one virtual cursor/line buffer per output
stream (stdout, stderr)", section 4.6). -/
structure StreamPair where
  out : TermState
  err : TermState
deriving DecidableEq, Repr

/-- Modelled from the spec: the buffers at the start of an execution. -/
def initStreams : StreamPair := ⟨initTerm, initTerm⟩

/-- Modelled from the spec: routing one write to its stream's buffer,
leaving the other stream untouched (section 4.6 "streams are tracked
independently"). -/
def applyWrite (p : StreamPair) (w : StreamWrite) : StreamPair :=
  if w.1 then ⟨termFeed p.out w.2, p.err⟩ else ⟨p.out, termFeed p.err w.2⟩

/-- Modelled from the spec: processing an execution's interleaved
sequence of stream writes. -/
def runWrites (ws : List StreamWrite) : StreamPair :=
  ws.foldl applyWrite initStreams

theorem runWrites_out_aux (p : StreamPair) (ws : List StreamWrite) :
    (ws.foldl applyWrite p).out = (ws.filter (fun w => w.1)).foldl
      (fun t w => termFeed t w.2) p.out := by
  induction ws generalizing p with
  | nil => rfl
  | cons w ws ih =>
      rcases w with ⟨b, s⟩
      cases b <;> simp [applyWrite, List.filter, ih]

theorem runWrites_err_aux (p : StreamPair) (ws : List StreamWrite) :
    (ws.foldl applyWrite p).err = (ws.filter (fun w => !w.1)).foldl
      (fun t w => termFeed t w.2) p.err := by
  induction ws generalizing p with
  | nil => rfl
  | cons w ws ih =>
      rcases w with ⟨b, s⟩
      cases b <;> simp [applyWrite, List.filter, ih]

/-! ## Kernel process supervisor and execution coordinator
(spec sections 4.4, 4.5, data model section 3) -/

/-- Modelled from the spec: the kernel supervisor states (section
4.4). -/
inductive KernelState where
  | unstarted
  | starting
  | ready
  | executing
  | shuttingDown
  | stopped
  | crashed
deriving DecidableEq, Repr

/-- Modelled from the spec: the error record carried by a non-success
ExecutionResult — name, message and formatted trace (section 3,
section 7). -/
structure ErrorRecord where
  ename : String
  evalue : String
  traceback : List String
deriving DecidableEq, Repr

/-- Modelled from the spec: the completion of one execution of user
code by the external interpreter process — either success or a captured
user-level failure, each with the raw bytes written to the two streams
and any display records (sections 4.4, 4.5, 7).  The interpreter itself
is external to the engine. -/
inductive UserOutcome where
  | ok (stdoutRaw stderrRaw : String) (display : List String)
  | err (ename evalue : String) (traceback : List String)
      (stdoutRaw stderrRaw : String)
deriving DecidableEq, Repr

/-- Modelled from the spec: the ExecutionResult record (section 3):
success flag, materialized stdout/stderr text, display records,
optional error record, execution counter, originating cell id. -/
structure ExecutionResult where
  success : Bool
  stdout : String
  stderr : String
  displayData : List String
  error : Option ErrorRecord
  executionCount : Nat
  cellId : String
deriving DecidableEq, Repr

/-- Modelled from the spec: the raised-to-caller error taxonomy
(section 7). -/
inductive DaemonError where
  | notFound (id : String)
  | notConnected
  | kernelError (msg : String)
  | poolExhausted
deriving DecidableEq, Repr

/-- Modelled from the spec: the KernelHandle — process state, opaque
interpreter-session state threaded across executions, execution
counter, and the resolved environment label (section 3). -/
structure Kernel (σ : Type) where
  state : KernelState
  interpState : σ
  execCount : Nat
  envSource : String

/-- Modelled from the spec: a Room holds the replicated document and
zero-or-one kernel handle plus the last-resolved environment label
(section 3: "at most one Kernel per Room"). -/
structure Room (σ : Type) where
  doc : DocState
  kernel : Option (Kernel σ)
  lastEnv : Option String

/-- Modelled from the spec: the prewarmed default environment label for
a Python notebook (sections 4.2, 8). -/
def defaultEnv : String := "uv:prewarmed"

/-- Modelled from the spec: `start(kind, descriptor)` — idempotent: if
the kernel is already Ready/Executing it returns immediately without
side effects; otherwise (none, stopped or crashed) a fresh process is
(re)spawned into Ready with a fresh interpreter session (section
4.4). -/
def startKernel {σ : Type} (σ0 : σ) (env : String) (room : Room σ) : Room σ :=
  match room.kernel with
  | some k =>
      if k.state = KernelState.ready ∨ k.state = KernelState.executing then room
      else { room with kernel := some ⟨KernelState.ready, σ0, 0, env⟩,
                       lastEnv := some env }
  | Option.none =>
      { room with kernel := some ⟨KernelState.ready, σ0, 0, env⟩,
                  lastEnv := some env }

/-- Modelled from the spec: assembling the ExecutionResult from an
execution's outcome — raw stream bytes go through the Terminal Emulator
to become the stdout/stderr fields (sections 2, 4.5, 4.6, 7). -/
def mkExecResult (id : String) (count : Nat) (o : UserOutcome) : ExecutionResult :=
  match o with
  | .ok outRaw errRaw disp =>
      ⟨true, terminalRender outRaw, terminalRender errRaw, disp,
        Option.none, count, id⟩
  | .err en ev tb outRaw errRaw =>
      ⟨false, terminalRender outRaw, terminalRender errRaw, [],
        some ⟨en, ev, tb⟩, count, id⟩

/-- Modelled from the spec: `execute_cell(id)` — reads the cell's
current source from the Replicated Document (never from the caller),
auto-starts the kernel with the last-resolved (or default) environment
if none is running, runs the source against the interpreter session,
and returns the assembled ExecutionResult together with the room whose
kernel is back in Ready (sections 4.4, 4.5).  A user-level failure is
captured in the result, never raised; an absent cell raises NotFound
(section 7). -/
def executeCell {σ : Type} (interp : String → σ → UserOutcome × σ) (σ0 : σ)
    (room : Room σ) (id : String) :
    Except DaemonError (ExecutionResult × Room σ) :=
  match getCell room.doc id with
  | Option.none => Except.error (DaemonError.notFound id)
  | some cell =>
      let room1 := startKernel σ0 (room.lastEnv.getD defaultEnv) room
      match room1.kernel with
      | Option.none => Except.error (DaemonError.kernelError "kernel failed to start")
      | some k =>
          let step := interp cell.source k.interpState
          let count := k.execCount + 1
          Except.ok (mkExecResult id count step.1,
            { room1 with kernel := some ⟨KernelState.ready, step.2, count, k.envSource⟩ })

/-! ## Environment resolver (spec section 4.2) -/

/-- Modelled from the spec: the recognized project descriptors in fixed
precedence order, each with the normalized env-source label it resolves
to (section 4.2; labels and file names per the auto-detection test
contract: pyproject.toml, pixi.toml, environment.yml). -/
def recognizedDescriptors : List (String × String) :=
  [("pyproject.toml", "uv:pyproject"),
   ("pixi.toml", "conda:pixi"),
   ("environment.yml", "conda:env_yml")]

/-- Modelled from the spec: the first recognized descriptor present in
one directory, by the fixed precedence order (section 4.2).  The
filesystem is abstracted as a map from a directory path (root-first
segment list) to the file names it contains. -/
def findDescriptor (fs : List String → List String) (dir : List String) :
    Option String :=
  (recognizedDescriptors.find? (fun p => (fs dir).contains p.1)).map (fun p => p.2)

/-- Modelled from the spec: the notebook's directory and all its
ancestors up to the filesystem root, in walk order — the directory
itself first, then each parent obtained by dropping the last path
segment, down to the root (section 4.2). -/
def ancestorDirs (dir : List String) : List (List String) :=
  (List.range (dir.length + 1)).reverse.map (fun n => dir.take n)

/-- Modelled from the spec: the upward walk — the first directory
containing a recognized descriptor wins and terminates the walk
(section 4.2). -/
def walkUp (fs : List String → List String) (notebookDir : List String) :
    Option String :=
  (ancestorDirs notebookDir).findSome? (findDescriptor fs)

/-- Modelled from the spec: the prewarmed-pool fallback label for a
notebook's declared interpreter family (sections 4.2, 8). -/
def prewarmedFor (language : String) : String :=
  if language = "python" then "uv:prewarmed" else "deno"

/-- Modelled from the spec: environment-source resolution for the
`"auto"` hint — walk up from the notebook directory; if no descriptor
is found before the filesystem root, fall back to the prewarmed pool
for the declared interpreter family; an explicit hint is passed through
(section 4.2). -/
def resolveEnvSource (fs : List String → List String) (language hint : String)
    (notebookDir : List String) : String :=
  if hint = "auto" then
    match walkUp fs notebookDir with
    | some label => label
    | Option.none => prewarmedFor language
  else hint

/-! ## Display-hook serialization
(`RichDisplayHook._make_serializable`,
`packages/pyodide-runtime-agent/src/ipython-setup.py` lines 173-200) -/

/-- A Python runtime value as seen by `_make_serializable`.  `obj`
stands for any other object: `reprS` is the result of `repr()` on it
and `strS` the result of `str()` on it, `Option.none` meaning the call
raises. -/
inductive PyVal where
  | none
  | bool (b : Bool)
  | int (n : Int)
  | str (s : String)
  | list (xs : List PyVal)
  | dict (entries : List (PyVal × PyVal))
  | obj (reprS : Option String) (strS : Option String)

/-- Python `repr()` of a string (quoting; the exact escape rules are
immaterial here). -/
def quoteStr (s : String) : String := "\x27" ++ s ++ "\x27"

mutual

/-- Python `repr()`: `Option.none` when the call raises. -/
def pyRepr : PyVal → Option String
  | .none => some "None"
  | .bool true => some "True"
  | .bool false => some "False"
  | .int n => some (toString n)
  | .str s => some (quoteStr s)
  | .list xs => (pyReprL xs).map (fun rs => "[" ++ String.intercalate ", " rs ++ "]")
  | .dict kvs => (pyReprKVs kvs).map
      (fun rs => "\x7b" ++ String.intercalate ", " rs ++ "\x7d")
  | .obj r _ => r

/-- `repr()` of each element of a list. -/
def pyReprL : List PyVal → Option (List String)
  | [] => some []
  | x :: xs =>
      match pyRepr x, pyReprL xs with
      | some r, some rs => some (r :: rs)
      | _, _ => Option.none

/-- `repr()` of each `key: value` entry of a dict. -/
def pyReprKVs : List (PyVal × PyVal) → Option (List String)
  | [] => some []
  | (k, v) :: xs =>
      match pyRepr k, pyRepr v, pyReprKVs xs with
      | some rk, some rv, some rs => some ((rk ++ ": " ++ rv) :: rs)
      | _, _, _ => Option.none

end

/-- Python `str()`: identity on strings, the object's own `__str__` for
opaque objects, and `repr()` for everything else (containers format
their elements with `repr`). -/
def pyStr : PyVal → Option String
  | .str s => some s
  | .obj _ s => s
  | v => pyRepr v

/-- Whether `json.dumps` accepts a value as a dict key (str, int, bool
and None are coerced; other keys raise TypeError). -/
def jsonKeyOk : PyVal → Bool
  | .none => true
  | .bool _ => true
  | .int _ => true
  | .str _ => true
  | _ => false

mutual

/-- Whether `json.dumps(v)` succeeds (default settings). -/
def jsonDumpsOk : PyVal → Bool
  | .none => true
  | .bool _ => true
  | .int _ => true
  | .str _ => true
  | .list xs => jsonDumpsOkL xs
  | .dict kvs => jsonDumpsOkKVs kvs
  | .obj _ _ => false

/-- `json.dumps` acceptance of every element of a list. -/
def jsonDumpsOkL : List PyVal → Bool
  | [] => true
  | x :: xs => jsonDumpsOk x && jsonDumpsOkL xs

/-- `json.dumps` acceptance of every entry of a dict. -/
def jsonDumpsOkKVs : List (PyVal × PyVal) → Bool
  | [] => true
  | (k, v) :: xs => jsonKeyOk k && jsonDumpsOk v && jsonDumpsOkKVs xs

end

namespace RichDisplayHook

/-- Python dict assignment `result[k] = v` on the accumulated result
dict: replaces the value in place when the key is already present,
otherwise appends the entry. -/
def dictInsert (l : List (String × PyVal)) (k : String) (v : PyVal) :
    List (String × PyVal) :=
  if l.any (fun p => p.1 == k) then
    l.map (fun p => if p.1 == k then (k, v) else p)
  else l ++ [(k, v)]

/-- The `for key, value in obj.items()` loop of `_make_serializable`
(lines 179-192): a JSON-serializable value is stored unchanged under
`str(key)`; a rejected value is stored as `str(value)`; a raising
`str()` propagates out of the loop (`Option.none`). -/
def serializeEntries : List (PyVal × PyVal) → List (String × PyVal) →
    Option (List (String × PyVal))
  | [], acc => some acc
  | (k, v) :: rest, acc =>
      match pyStr k with
      | Option.none => Option.none
      | some ks =>
          if jsonDumpsOk v then serializeEntries rest (dictInsert acc ks v)
          else
            match pyStr v with
            | Option.none => Option.none
            | some vs => serializeEntries rest (dictInsert acc ks (PyVal.str vs))

/-- `RichDisplayHook._make_serializable` (ipython-setup.py lines
173-200): None becomes `\x7b\x7d`; a dict is rebuilt entry by entry with
string keys; any other value is returned unchanged when `json.dumps`
accepts it and replaced by `str(obj)` otherwise.  `Option.none` models
the call raising. -/
def _make_serializable : PyVal → Option PyVal
  | .none => some (PyVal.dict [])
  | .dict kvs =>
      (serializeEntries kvs []).map
        (fun entries => PyVal.dict (entries.map (fun p => (PyVal.str p.1, p.2))))
  | v => if jsonDumpsOk v then some v else (pyStr v).map PyVal.str

end RichDisplayHook

/-! ## Coordinator computation lemmas -/

theorem mkExecResult_cellId (id : String) (c : Nat) (o : UserOutcome) :
    (mkExecResult id c o).cellId = id := by
  cases o <;> rfl

theorem startKernel_running {σ : Type} (σ1 : σ) (env : String) (room : Room σ)
    (k : Kernel σ) (hk : room.kernel = some k)
    (hready : k.state = KernelState.ready ∨ k.state = KernelState.executing) :
    startKernel σ1 env room = room := by
  unfold startKernel
  rw [hk]
  simp [hready]

theorem executeCell_ready_eq {σ : Type} (interp : String → σ → UserOutcome × σ) (σ0 : σ)
    (room : Room σ) (k : Kernel σ) (id : String) (cell : Cell)
    (hk : room.kernel = some k) (hready : k.state = KernelState.ready)
    (hc : getCell room.doc id = some cell) :
    executeCell interp σ0 room id =
      Except.ok (mkExecResult id (k.execCount + 1) (interp cell.source k.interpState).1,
        { room with kernel := some ⟨KernelState.ready, (interp cell.source k.interpState).2,
            k.execCount + 1, k.envSource⟩ }) := by
  unfold executeCell
  rw [hc, startKernel_running _ _ _ _ hk (Or.inl hready)]
  simp only [hk]

/-! ## Claim theorems -/

/-- C1: `execute_cell(id)` executes the source text currently stored in
the document at call time, never a cached copy or a caller-supplied
value: after `create_cell` followed by `set_source(id, s2)`, a
subsequent `execute_cell(id)` runs the interpreter on `s2`, and the
returned ExecutionResult's `cell_id` equals `id`. -/
theorem execute_reads_current_source {σ : Type} (interp : String → σ → UserOutcome × σ)
    (σ0 : σ) (room : Room σ) (k : Kernel σ) (suffix s s2 : String) (ts1 ts2 : Timestamp)
    (hk : room.kernel = some k) (hready : k.state = KernelState.ready)
    (hfresh : room.doc ("cell-" ++ suffix) = Option.none)
    (hts : tsLtb ts1 ts2 = true) :
    executeCell interp σ0
        { room with doc := setSource (createCell room.doc suffix s ts1).2 ("cell-" ++ suffix) s2 ts2 }
        ("cell-" ++ suffix)
      = Except.ok
          (mkExecResult ("cell-" ++ suffix) (k.execCount + 1) (interp s2 k.interpState).1,
           { room with
               doc := setSource (createCell room.doc suffix s ts1).2 ("cell-" ++ suffix) s2 ts2,
               kernel := some ⟨KernelState.ready, (interp s2 k.interpState).2,
                 k.execCount + 1, k.envSource⟩ })
      ∧ (mkExecResult ("cell-" ++ suffix) (k.execCount + 1) (interp s2 k.interpState).1).cellId
          = "cell-" ++ suffix := by
  have hdoc : getCell (setSource (createCell room.doc suffix s ts1).2 ("cell-" ++ suffix) s2 ts2)
      ("cell-" ++ suffix) = some ⟨"cell-" ++ suffix, s2, "code"⟩ := by
    simp [getCell, setSource, createCell, hfresh, hts]
  exact ⟨executeCell_ready_eq interp σ0
      { room with doc := setSource (createCell room.doc suffix s ts1).2 ("cell-" ++ suffix) s2 ts2 }
      k ("cell-" ++ suffix) ⟨"cell-" ++ suffix, s2, "code"⟩ hk hready hdoc,
    mkExecResult_cellId _ _ _⟩

/-- C2: a user-level failure is never raised to the caller:
`execute_cell` returns (`Except.ok`) an ExecutionResult with
`success = false` whose error record carries the error name, message
and formatted trace produced by the interpreter. -/
theorem execution_failure_captured {σ : Type} (interp : String → σ → UserOutcome × σ)
    (σ0 : σ) (room : Room σ) (k : Kernel σ) (id : String) (cell : Cell)
    (en ev : String) (tb : List String) (so se : String)
    (hk : room.kernel = some k) (hready : k.state = KernelState.ready)
    (hc : getCell room.doc id = some cell)
    (he : (interp cell.source k.interpState).1 = UserOutcome.err en ev tb so se) :
    executeCell interp σ0 room id =
      Except.ok
        (⟨false, terminalRender so, terminalRender se, [], some ⟨en, ev, tb⟩,
           k.execCount + 1, id⟩,
         { room with kernel := some ⟨KernelState.ready, (interp cell.source k.interpState).2,
             k.execCount + 1, k.envSource⟩ }) := by
  rw [executeCell_ready_eq interp σ0 room k id cell hk hready hc, he]
  rfl

/-- C3: a user-level failure of one execution does not crash the kernel
and does not prevent an independently issued subsequent execution on
the same kernel from succeeding: after a failed `execute_cell` the
kernel is back in Ready, and executing a valid cell next returns
`success = true`. -/
theorem error_does_not_crash_kernel {σ : Type} (interp : String → σ → UserOutcome × σ)
    (σ0 : σ) (room : Room σ) (k : Kernel σ) (id1 id2 : String) (cell1 cell2 : Cell)
    (en ev : String) (tb : List String) (so se o2 e2 : String) (d2 : List String)
    (hk : room.kernel = some k) (hready : k.state = KernelState.ready)
    (hc1 : getCell room.doc id1 = some cell1)
    (hc2 : getCell room.doc id2 = some cell2)
    (he : (interp cell1.source k.interpState).1 = UserOutcome.err en ev tb so se)
    (ho : (interp cell2.source (interp cell1.source k.interpState).2).1
        = UserOutcome.ok o2 e2 d2) :
    ∃ r1 room1 r2 room2,
      executeCell interp σ0 room id1 = Except.ok (r1, room1) ∧
      r1.success = false ∧
      (∃ k1, room1.kernel = some k1 ∧ k1.state = KernelState.ready) ∧
      executeCell interp σ0 room1 id2 = Except.ok (r2, room2) ∧
      r2.success = true := by
  refine ⟨mkExecResult id1 (k.execCount + 1) (interp cell1.source k.interpState).1,
    { room with kernel := some ⟨KernelState.ready, (interp cell1.source k.interpState).2,
        k.execCount + 1, k.envSource⟩ },
    mkExecResult id2 (k.execCount + 1 + 1)
      (interp cell2.source (interp cell1.source k.interpState).2).1,
    { room with kernel := some ⟨KernelState.ready,
        (interp cell2.source (interp cell1.source k.interpState).2).2,
        k.execCount + 1 + 1, k.envSource⟩ },
    executeCell_ready_eq interp σ0 room k id1 cell1 hk hready hc1,
    ?_, ⟨_, rfl, rfl⟩, ?_, ?_⟩
  · rw [he]
    rfl
  · exact executeCell_ready_eq interp σ0
      { room with kernel := some ⟨KernelState.ready, (interp cell1.source k.interpState).2,
          k.execCount + 1, k.envSource⟩ }
      ⟨KernelState.ready, (interp cell1.source k.interpState).2, k.execCount + 1, k.envSource⟩
      id2 cell2 rfl rfl hc2
  · rw [ho]
    rfl

/-- C4: on a room with no running kernel, `execute_cell` auto-starts a
kernel using the last-resolved (or default) environment — with no prior
explicit `start_kernel` call — the execution succeeds, and afterwards
the kernel is running (Ready). -/
theorem execute_auto_starts_kernel {σ : Type} (interp : String → σ → UserOutcome × σ)
    (σ0 : σ) (room : Room σ) (id : String) (cell : Cell)
    (o e : String) (d : List String)
    (hnk : room.kernel = Option.none)
    (hc : getCell room.doc id = some cell)
    (ho : (interp cell.source σ0).1 = UserOutcome.ok o e d) :
    ∃ r room2 k2,
      executeCell interp σ0 room id = Except.ok (r, room2) ∧
      r.success = true ∧
      room2.kernel = some k2 ∧
      k2.state = KernelState.ready ∧
      k2.envSource = room.lastEnv.getD defaultEnv := by
  refine ⟨mkExecResult id (0 + 1) (interp cell.source σ0).1,
    ⟨room.doc, some ⟨KernelState.ready, (interp cell.source σ0).2, 0 + 1,
        room.lastEnv.getD defaultEnv⟩, some (room.lastEnv.getD defaultEnv)⟩,
    ⟨KernelState.ready, (interp cell.source σ0).2, 0 + 1, room.lastEnv.getD defaultEnv⟩,
    ?_, ?_, rfl, rfl, rfl⟩
  · unfold executeCell
    rw [hc]
    unfold startKernel
    simp only [hnk]
  · rw [ho]
    rfl

/-- C5: for any sequences of `create_cell` / `set_source` /
`delete_cell` issued by two independently connected sessions on the
same (initially empty) notebook, once each peer has merged the other's
state — the propagation step within the bounded window — both observe
the same cell set: every id resolves to the same cell with the same
source on both peers, with no coordination beyond the convergent
merge. -/
theorem doc_sync_convergence (opsA opsB : List DocOp) (id : String) :
    getCell (mergeDoc (applyOps emptyDoc opsA) (applyOps emptyDoc opsB)) id
      = getCell (mergeDoc (applyOps emptyDoc opsB) (applyOps emptyDoc opsA)) id :=
  doc_sync_convergence_aux _ _ _

/-- C6: in the terminal emulator a carriage return moves the cursor to
the start of the current line without clearing it and subsequent writes
overwrite in place; the ExecutionResult's stdout field is the
emulator's materialization of the raw bytes; and for the raw stdout
bytes "Progress: 50%\rProgress: 100%" the committed stdout text
contains "Progress: 100%" and does not contain "Progress: 50%". -/
theorem carriage_return_overwrites :
    (∀ st : TermState, termWrite st '\r' = ⟨st.committed, st.line, 0⟩) ∧
    (mkExecResult "c" 1 (UserOutcome.ok "Progress: 50%\rProgress: 100%" "" [])).stdout
      = terminalRender "Progress: 50%\rProgress: 100%" ∧
    strOccursIn "Progress: 100%" (terminalRender "Progress: 50%\rProgress: 100%") = true ∧
    strOccursIn "Progress: 50%" (terminalRender "Progress: 50%\rProgress: 100%") = false := by
  refine ⟨fun st => by simp [termWrite], rfl, by decide, by decide⟩

/-- C7: within one execution, stdout and stderr are materialized
independently: the stdout buffer after any interleaving of writes
equals the buffer produced by the stdout writes alone (and symmetrically
for stderr), so text written only to one stream never appears in the
other — as in the interleaved out1/err1/out2 scenario. -/
theorem streams_never_bleed :
    (∀ ws : List StreamWrite,
      (runWrites ws).out = (runWrites (ws.filter (fun w => w.1))).out ∧
      (runWrites ws).err = (runWrites (ws.filter (fun w => !w.1))).err) ∧
    strOccursIn "err1"
      ((runWrites [(true, "out1\n"), (false, "err1\n"), (true, "out2\n")]).out.render) = false ∧
    strOccursIn "out1"
      ((runWrites [(true, "out1\n"), (false, "err1\n"), (true, "out2\n")]).err.render) = false := by
  refine ⟨fun ws => ⟨?_, ?_⟩, by decide, by decide⟩
  · rw [runWrites, runWrites, runWrites_out_aux, runWrites_out_aux, List.filter_filter]
    simp
  · rw [runWrites, runWrites, runWrites_err_aux, runWrites_err_aux, List.filter_filter]
    simp

/-- C8: with the `"auto"` hint, when no recognized project descriptor
exists in the notebook's directory or any ancestor up to the filesystem
root, environment resolution falls back to the prewarmed pool for the
notebook's declared interpreter family; for a Python notebook the
resolved label is "uv:prewarmed". -/
theorem auto_resolution_falls_back_to_prewarmed (fs : List String → List String)
    (language : String) (notebookDir : List String)
    (h : ∀ dir ∈ ancestorDirs notebookDir, findDescriptor fs dir = Option.none) :
    resolveEnvSource fs language "auto" notebookDir = prewarmedFor language ∧
    (language = "python" →
      resolveEnvSource fs language "auto" notebookDir = "uv:prewarmed") := by
  have hw : walkUp fs notebookDir = Option.none := by
    unfold walkUp
    exact List.findSome?_eq_none_iff.mpr h
  constructor
  · simp [resolveEnvSource, hw]
  · intro hl
    simp [resolveEnvSource, hw, prewarmedFor, hl]

/-- C9: kernel start is idempotent — on a room whose kernel is already
Ready or Executing, a second start call returns the room unchanged
(no side effects, the single existing kernel and its interpreter state
are kept), so every later execution behaves exactly as it would have
without the second start call. -/
theorem start_kernel_idempotent {σ : Type} (interp : String → σ → UserOutcome × σ)
    (σ0 σ1 : σ) (env : String) (room : Room σ) (k : Kernel σ)
    (hk : room.kernel = some k)
    (hrun : k.state = KernelState.ready ∨ k.state = KernelState.executing) :
    startKernel σ1 env room = room ∧
    (startKernel σ1 env room).kernel = some k ∧
    ∀ id, executeCell interp σ0 (startKernel σ1 env room) id
        = executeCell interp σ0 room id := by
  have h := startKernel_running σ1 env room k hk hrun
  exact ⟨h, by rw [h, hk], fun id => by rw [h]⟩

/-! ## Properties of the display-hook serialization -/

/-- The totality precondition forced by the dict branch of
`_make_serializable`: `str()` succeeds on the input itself and, for a
dict input, on every key and on every value that `json.dumps`
rejects. -/
def strOkForSerialize : PyVal → Prop
  | .dict kvs => ∀ p ∈ kvs, (pyStr p.1).isSome = true ∧
      (jsonDumpsOk p.2 = false → (pyStr p.2).isSome = true)
  | v => (pyStr v).isSome = true

/-- Provenance of one entry of the rebuilt dict: its key is `str()` of
an input key and its value is the corresponding input value — unchanged
when `json.dumps` accepts it, `str()` of it otherwise. -/
def entryFromEntries (kvs : List (PyVal × PyVal)) (e : String × PyVal) : Prop :=
  ∃ k v, (k, v) ∈ kvs ∧ pyStr k = some e.1 ∧
    ((jsonDumpsOk v = true ∧ e.2 = v) ∨
     (jsonDumpsOk v = false ∧ ∃ s, pyStr v = some s ∧ e.2 = PyVal.str s))

namespace RichDisplayHook

theorem mem_dictInsert {l : List (String × PyVal)} {k : String} {v : PyVal}
    {e : String × PyVal} (h : e ∈ dictInsert l k v) : e = (k, v) ∨ e ∈ l := by
  unfold dictInsert at h
  by_cases hc : l.any (fun p => p.1 == k)
  · rw [if_pos hc] at h
    obtain ⟨p, hp, he⟩ := List.mem_map.mp h
    by_cases hk : p.1 == k
    · rw [if_pos hk] at he
      exact Or.inl he.symm
    · rw [if_neg hk] at he
      exact Or.inr (he ▸ hp)
  · rw [if_neg hc] at h
    rcases List.mem_append.mp h with h1 | h1
    · exact Or.inr h1
    · simp only [List.mem_singleton] at h1
      exact Or.inl h1

theorem entryFromEntries_cons {kvs : List (PyVal × PyVal)} {kv : PyVal × PyVal}
    {e : String × PyVal} (h : entryFromEntries kvs e) :
    entryFromEntries (kv :: kvs) e := by
  obtain ⟨k, v, hm, rest⟩ := h
  exact ⟨k, v, List.mem_cons_of_mem _ hm, rest⟩

theorem serializeEntries_mem :
    ∀ (kvs : List (PyVal × PyVal)) (acc out : List (String × PyVal)),
      serializeEntries kvs acc = some out →
      ∀ e ∈ out, entryFromEntries kvs e ∨ e ∈ acc := by
  intro kvs
  induction kvs with
  | nil =>
      intro acc out h e he
      simp only [serializeEntries, Option.some.injEq] at h
      exact Or.inr (h ▸ he)
  | cons kv rest ih =>
      obtain ⟨k, v⟩ := kv
      intro acc out h e he
      simp only [serializeEntries] at h
      cases hks : pyStr k with
      | none =>
          simp only [hks] at h
          exact Option.noConfusion h
      | some ks =>
          simp only [hks] at h
          by_cases hok : jsonDumpsOk v
          · rw [if_pos hok] at h
            rcases ih _ _ h e he with h1 | h1
            · exact Or.inl (entryFromEntries_cons h1)
            · rcases mem_dictInsert h1 with h2 | h2
              · refine Or.inl ⟨k, v, List.mem_cons_self _ _, ?_, Or.inl ⟨hok, ?_⟩⟩
                · rw [h2]; exact hks
                · rw [h2]
              · exact Or.inr h2
          · rw [if_neg hok] at h
            cases hvs : pyStr v with
            | none =>
                simp only [hvs] at h
                exact Option.noConfusion h
            | some vs =>
                simp only [hvs] at h
                rcases ih _ _ h e he with h1 | h1
                · exact Or.inl (entryFromEntries_cons h1)
                · rcases mem_dictInsert h1 with h2 | h2
                  · refine Or.inl ⟨k, v, List.mem_cons_self _ _, ?_,
                      Or.inr ⟨by simpa using hok, vs, hvs, ?_⟩⟩
                    · rw [h2]; exact hks
                    · rw [h2]
                  · exact Or.inr h2

theorem serializeEntries_values_ok :
    ∀ (kvs : List (PyVal × PyVal)) (acc out : List (String × PyVal)),
      (∀ p ∈ acc, jsonDumpsOk p.2 = true) →
      serializeEntries kvs acc = some out →
      ∀ p ∈ out, jsonDumpsOk p.2 = true := by
  intro kvs
  induction kvs with
  | nil =>
      intro acc out hacc h p hp
      simp only [serializeEntries, Option.some.injEq] at h
      exact hacc p (h ▸ hp)
  | cons kv rest ih =>
      obtain ⟨k, v⟩ := kv
      intro acc out hacc h p hp
      simp only [serializeEntries] at h
      cases hks : pyStr k with
      | none =>
          simp only [hks] at h
          exact Option.noConfusion h
      | some ks =>
          simp only [hks] at h
          by_cases hok : jsonDumpsOk v
          · rw [if_pos hok] at h
            refine ih _ _ ?_ h p hp
            intro q hq
            rcases mem_dictInsert hq with h2 | h2
            · rw [h2]; exact hok
            · exact hacc q h2
          · rw [if_neg hok] at h
            cases hvs : pyStr v with
            | none =>
                simp only [hvs] at h
                exact Option.noConfusion h
            | some vs =>
                simp only [hvs] at h
                refine ih _ _ ?_ h p hp
                intro q hq
                rcases mem_dictInsert hq with h2 | h2
                · rw [h2]; rfl
                · exact hacc q h2

theorem serializeEntries_total :
    ∀ (kvs : List (PyVal × PyVal)),
      (∀ p ∈ kvs, (pyStr p.1).isSome = true ∧
        (jsonDumpsOk p.2 = false → (pyStr p.2).isSome = true)) →
      ∀ acc, (serializeEntries kvs acc).isSome = true := by
  intro kvs
  induction kvs with
  | nil => intro _ acc; rfl
  | cons kv rest ih =>
      obtain ⟨k, v⟩ := kv
      intro h acc
      obtain ⟨hk, hv⟩ := h (k, v) (List.mem_cons_self _ _)
      obtain ⟨ks, hks⟩ := Option.isSome_iff_exists.mp hk
      have hrest : ∀ p ∈ rest, (pyStr p.1).isSome = true ∧
          (jsonDumpsOk p.2 = false → (pyStr p.2).isSome = true) :=
        fun p hp => h p (List.mem_cons_of_mem _ hp)
      simp only [serializeEntries, hks]
      by_cases hok : jsonDumpsOk v
      · rw [if_pos hok]
        exact ih hrest _
      · rw [if_neg hok]
        obtain ⟨vs, hvs⟩ := Option.isSome_iff_exists.mp
          (hv (Bool.not_eq_true _ ▸ Bool.of_not_eq_true hok))
        simp only [hvs]
        exact ih hrest _

theorem make_serializable_other (v : PyVal) (h1 : v ≠ PyVal.none)
    (h2 : ∀ kvs, v ≠ PyVal.dict kvs) :
    _make_serializable v
      = if jsonDumpsOk v then some v else (pyStr v).map PyVal.str := by
  cases v
  case none => exact absurd rfl h1
  case dict kvs => exact absurd rfl (h2 kvs)
  all_goals rfl

end RichDisplayHook

theorem jsonDumpsOkKVs_mapped (out : List (String × PyVal))
    (h : ∀ p ∈ out, jsonDumpsOk p.2 = true) :
    jsonDumpsOkKVs (out.map (fun p => (PyVal.str p.1, p.2))) = true := by
  induction out with
  | nil => rfl
  | cons p ps ih =>
      simp only [List.map_cons, jsonDumpsOkKVs]
      rw [h p (List.mem_cons_self _ _),
        ih (fun q hq => h q (List.mem_cons_of_mem _ hq))]
      rfl

namespace RichDisplayHook

theorem make_serializable_isSome_of_pyStr (v : PyVal) (h1 : v ≠ PyVal.none)
    (h2 : ∀ kvs, v ≠ PyVal.dict kvs) (h : (pyStr v).isSome = true) :
    (_make_serializable v).isSome = true := by
  rw [make_serializable_other v h1 h2]
  by_cases hok : jsonDumpsOk v
  · rw [if_pos hok]
    rfl
  · rw [if_neg hok]
    simpa [Option.isSome_map'] using h

theorem make_serializable_output_ok_other (v : PyVal) (h1 : v ≠ PyVal.none)
    (h2 : ∀ kvs, v ≠ PyVal.dict kvs) (r : PyVal)
    (hr : _make_serializable v = some r) : jsonDumpsOk r = true := by
  rw [make_serializable_other v h1 h2] at hr
  by_cases hok : jsonDumpsOk v
  · rw [if_pos hok] at hr
    cases hr
    exact hok
  · rw [if_neg hok] at hr
    obtain ⟨s, hs, hf⟩ := Option.map_eq_some'.mp hr
    rw [← hf]
    rfl

end RichDisplayHook

/-- C10 (amended): `RichDisplayHook._make_serializable` maps None to an
empty dict; its output, whenever it returns, is JSON-serializable; it
returns without raising for every input whose `str()` succeeds,
provided that for a dict input `str()` also succeeds on every key and
on every value rejected by `json.dumps` (the dict branch calls
`str(key)` and `str(value)` outside its own try/except, so their
failure propagates); and for a dict input it returns a dict with string
keys in which every value is an input value that passes `json.dumps`
unchanged or the `str()` of one that does not; and any other input that
`json.dumps` rejects is replaced by `str(obj)`. -/
theorem make_serializable_spec (v : PyVal) :
    RichDisplayHook._make_serializable PyVal.none = some (PyVal.dict []) ∧
    (strOkForSerialize v → (RichDisplayHook._make_serializable v).isSome = true) ∧
    (∀ r, RichDisplayHook._make_serializable v = some r → jsonDumpsOk r = true) ∧
    (∀ kvs r, v = PyVal.dict kvs → RichDisplayHook._make_serializable v = some r →
      ∃ out : List (String × PyVal),
        r = PyVal.dict (out.map (fun p => (PyVal.str p.1, p.2))) ∧
        ∀ e ∈ out, entryFromEntries kvs e) ∧
    (v ≠ PyVal.none → (∀ kvs, v ≠ PyVal.dict kvs) → jsonDumpsOk v = false →
      RichDisplayHook._make_serializable v = (pyStr v).map PyVal.str) := by
  refine ⟨rfl, ?_, ?_, ?_, ?_⟩
  · intro h
    cases v with
    | none => rfl
    | dict kvs =>
        have := RichDisplayHook.serializeEntries_total kvs h []
        simpa [RichDisplayHook._make_serializable, Option.isSome_map'] using this
    | bool b =>
        exact RichDisplayHook.make_serializable_isSome_of_pyStr _ (by simp) (fun _ => by simp) h
    | int n =>
        exact RichDisplayHook.make_serializable_isSome_of_pyStr _ (by simp) (fun _ => by simp) h
    | str s =>
        exact RichDisplayHook.make_serializable_isSome_of_pyStr _ (by simp) (fun _ => by simp) h
    | list xs =>
        exact RichDisplayHook.make_serializable_isSome_of_pyStr _ (by simp) (fun _ => by simp) h
    | obj r s =>
        exact RichDisplayHook.make_serializable_isSome_of_pyStr _ (by simp) (fun _ => by simp) h
  · intro r hr
    cases v with
    | none =>
        rw [show RichDisplayHook._make_serializable PyVal.none
            = some (PyVal.dict []) from rfl] at hr
        cases hr
        rfl
    | dict kvs =>
        simp only [RichDisplayHook._make_serializable] at hr
        obtain ⟨out, hout, hmap⟩ := Option.map_eq_some'.mp hr
        have hvals := RichDisplayHook.serializeEntries_values_ok kvs [] out
          (fun p hp => absurd hp (List.not_mem_nil p)) hout
        rw [← hmap]
        simpa [jsonDumpsOk] using jsonDumpsOkKVs_mapped out hvals
    | bool b =>
        exact RichDisplayHook.make_serializable_output_ok_other _ (by simp) (fun _ => by simp) r hr
    | int n =>
        exact RichDisplayHook.make_serializable_output_ok_other _ (by simp) (fun _ => by simp) r hr
    | str s =>
        exact RichDisplayHook.make_serializable_output_ok_other _ (by simp) (fun _ => by simp) r hr
    | list xs =>
        exact RichDisplayHook.make_serializable_output_ok_other _ (by simp) (fun _ => by simp) r hr
    | obj rr ss =>
        exact RichDisplayHook.make_serializable_output_ok_other _ (by simp) (fun _ => by simp) r hr
  · intro kvs r hv hr
    subst hv
    simp only [RichDisplayHook._make_serializable] at hr
    obtain ⟨out, hout, hmap⟩ := Option.map_eq_some'.mp hr
    refine ⟨out, hmap.symm, ?_⟩
    intro e he
    rcases RichDisplayHook.serializeEntries_mem kvs [] out hout e he with h1 | h1
    · exact h1
    · exact absurd h1 (List.not_mem_nil e)
  · intro h1 h2 hrej
    rw [RichDisplayHook.make_serializable_other v h1 h2, hrej]
    simp

/-- C10 counterexample: a dict whose value has a working `repr()` (so
`str()` of the whole dict succeeds) but a raising `str()`; `json.dumps`
rejects the value, the except branch then calls `str(value)`, and that
raises out of `_make_serializable` — so the function is not total on
all inputs whose own `str()` succeeds, as the claim states. -/
theorem make_serializable_not_total :
    (pyStr (PyVal.dict [(PyVal.str "k", PyVal.obj (some "A") Option.none)])).isSome = true ∧
    RichDisplayHook._make_serializable
        (PyVal.dict [(PyVal.str "k", PyVal.obj (some "A") Option.none)]) = Option.none :=
  ⟨rfl, rfl⟩

/-- Witness for the amended C10 theorem: a dict with one
non-JSON-serializable value whose `str()` succeeds is serialized
without raising. -/
theorem make_serializable_spec_witness :
    (RichDisplayHook._make_serializable
        (PyVal.dict [(PyVal.str "a", PyVal.obj Option.none (some "A"))])).isSome = true :=
  (make_serializable_spec
      (PyVal.dict [(PyVal.str "a", PyVal.obj Option.none (some "A"))])).2.1
    (by
      intro p hp
      simp only [List.mem_singleton] at hp
      subst hp
      exact ⟨rfl, fun _ => rfl⟩)

/-! ## Concrete witnesses -/

/-- Modelled from the spec: the observable behaviour of the external
Python interpreter on the concrete scenario sources of section 8, used
to instantiate the coordinator theorems. -/
def specInterp : String → Unit → UserOutcome × Unit :=
  fun src _ =>
    if src = "raise ValueError(\x27x\x27)" then
      (UserOutcome.err "ValueError" "x" ["ValueError: x"] "" "", ())
    else if src = "result = 2 + 2; print(result)" then
      (UserOutcome.ok "4\n" "" [], ())
    else (UserOutcome.ok "" "" [], ())

/-- A kernel handle already in Ready, as left by a prior start. -/
def readyKernel : Kernel Unit := ⟨KernelState.ready, (), 0, "uv:prewarmed"⟩

/-- A document holding the two scenario cells of spec section 8. -/
def scenarioDoc : DocState :=
  (createCell (createCell emptyDoc "1" "raise ValueError(\x27x\x27)" ⟨0, 0⟩).2
    "2" "result = 2 + 2; print(result)" ⟨1, 0⟩).2

/-- A room with the scenario document and a Ready kernel. -/
def scenarioRoom : Room Unit := ⟨scenarioDoc, some readyKernel, some "uv:prewarmed"⟩

/-- A room with the scenario document and no kernel started. -/
def noKernelRoom : Room Unit := ⟨scenarioDoc, Option.none, Option.none⟩

/-- The scenario document after creating a third cell and then updating
its source. -/
def c1Doc : DocState :=
  setSource (createCell scenarioDoc "3" "original" ⟨2, 0⟩).2 ("cell-" ++ "3")
    "result = 2 + 2; print(result)" ⟨3, 0⟩

/-- Witness for C1: on the concrete scenario room, creating a cell and
then updating its source makes execution run the updated source, with
the result's cell id matching. -/
theorem execute_reads_current_source_witness :
    executeCell specInterp () ⟨c1Doc, some readyKernel, some "uv:prewarmed"⟩ ("cell-" ++ "3")
      = Except.ok
          (mkExecResult ("cell-" ++ "3") (readyKernel.execCount + 1)
            (specInterp "result = 2 + 2; print(result)" readyKernel.interpState).1,
           ⟨c1Doc, some ⟨KernelState.ready,
               (specInterp "result = 2 + 2; print(result)" readyKernel.interpState).2,
               readyKernel.execCount + 1, readyKernel.envSource⟩, some "uv:prewarmed"⟩)
      ∧ (mkExecResult ("cell-" ++ "3") (readyKernel.execCount + 1)
          (specInterp "result = 2 + 2; print(result)" readyKernel.interpState).1).cellId
        = "cell-" ++ "3" :=
  execute_reads_current_source specInterp () scenarioRoom readyKernel "3" "original"
    "result = 2 + 2; print(result)" ⟨2, 0⟩ ⟨3, 0⟩ rfl rfl (by decide) (by decide)

/-- Witness for C2: executing the scenario cell
"raise ValueError(\x27x\x27)" returns (rather than raises) a result
with success false and error name "ValueError". -/
theorem execution_failure_captured_witness :
    executeCell specInterp () scenarioRoom "cell-1" =
      Except.ok
        (⟨false, terminalRender "", terminalRender "", [],
           some ⟨"ValueError", "x", ["ValueError: x"]⟩, readyKernel.execCount + 1, "cell-1"⟩,
         ⟨scenarioDoc, some ⟨KernelState.ready,
             (specInterp "raise ValueError(\x27x\x27)" readyKernel.interpState).2,
             readyKernel.execCount + 1, readyKernel.envSource⟩, some "uv:prewarmed"⟩) :=
  execution_failure_captured specInterp () scenarioRoom readyKernel "cell-1"
    ⟨"cell-1", "raise ValueError(\x27x\x27)", "code"⟩ "ValueError" "x" ["ValueError: x"] "" ""
    rfl rfl (by decide) (by decide)

/-- Witness for C3: after the failing scenario cell, the kernel is
still Ready and the valid scenario cell still succeeds. -/
theorem error_does_not_crash_kernel_witness :
    ∃ r1 room1 r2 room2,
      executeCell specInterp () scenarioRoom "cell-1" = Except.ok (r1, room1) ∧
      r1.success = false ∧
      (∃ k1, room1.kernel = some k1 ∧ k1.state = KernelState.ready) ∧
      executeCell specInterp () room1 "cell-2" = Except.ok (r2, room2) ∧
      r2.success = true :=
  error_does_not_crash_kernel specInterp () scenarioRoom readyKernel "cell-1" "cell-2"
    ⟨"cell-1", "raise ValueError(\x27x\x27)", "code"⟩
    ⟨"cell-2", "result = 2 + 2; print(result)", "code"⟩
    "ValueError" "x" ["ValueError: x"] "" "" "4\n" "" []
    rfl rfl (by decide) (by decide) (by decide) (by decide)

/-- Witness for C4: executing on the kernel-less scenario room
auto-starts a kernel with the default environment and succeeds. -/
theorem execute_auto_starts_kernel_witness :
    ∃ r room2 k2,
      executeCell specInterp () noKernelRoom "cell-2" = Except.ok (r, room2) ∧
      r.success = true ∧
      room2.kernel = some k2 ∧
      k2.state = KernelState.ready ∧
      k2.envSource = noKernelRoom.lastEnv.getD defaultEnv :=
  execute_auto_starts_kernel specInterp () noKernelRoom "cell-2"
    ⟨"cell-2", "result = 2 + 2; print(result)", "code"⟩ "4\n" "" []
    rfl (by decide) (by decide)

/-- Witness for C8: with an empty filesystem no descriptor is found
anywhere on the walk, and a Python notebook resolves to
"uv:prewarmed". -/
theorem auto_resolution_falls_back_to_prewarmed_witness :
    resolveEnvSource (fun _ => []) "python" "auto" ["home", "user"]
        = prewarmedFor "python" ∧
    ("python" = "python" →
      resolveEnvSource (fun _ => []) "python" "auto" ["home", "user"] = "uv:prewarmed") :=
  auto_resolution_falls_back_to_prewarmed (fun _ => []) "python" ["home", "user"] (by decide)

/-- Witness for C9: a second start on the already-running scenario room
leaves it unchanged and a later execution behaves identically. -/
theorem start_kernel_idempotent_witness :
    startKernel () "uv:prewarmed" scenarioRoom = scenarioRoom ∧
    executeCell specInterp () (startKernel () "uv:prewarmed" scenarioRoom) "cell-1"
      = executeCell specInterp () scenarioRoom "cell-1" := by
  obtain ⟨h1, h2, h3⟩ := start_kernel_idempotent specInterp () () "uv:prewarmed"
    scenarioRoom readyKernel rfl (Or.inl rfl)
  exact ⟨h1, h3 "cell-1"⟩
